import Mathlib

/-!
Shallow embedding of the hkpy client library (files
`hkpy/hkbase/hkbase.py` and `hkpy/hkbase/hkrepository.py`).

The two source files implement a thin HTTP client: every operation builds
a URL, (deep-)copies and adjusts a header mapping, serializes a payload,
issues one HTTP request, validates the response and converts the JSON
result back into domain entities.

Embedding choices:
- Python dicts used for headers are ordered association lists
  (`Headers`); Python's `d[k] = v` is `dictSet`.
- Object identity of the mutable header dict is modelled with an explicit
  heap of header cells (`Heap`) and references (`Nat` indices); this is
  needed because `HKRepository.__init__` stores `base._headers` by
  reference while per-call code works on `copy.deepcopy` copies.
- The HTTP network is an oracle (`NetOutcome`): each call either yields an
  `HTTPResponse` or raises an exception.  Operations return the result
  (`Except PyErr`), the list of HTTP requests actually issued, and the
  (unchanged) heap.
- JSON serialization is modelled structurally: request bodies carry the
  structured value that `json.dumps` would have rendered, and values that
  `json.dumps` cannot serialize (domain entity objects) raise `TypeError`
  at serialization time, exactly where Python would raise.
- Parts of the package that are outside the two source files
  (`response_validator`, `hkfy`, `HKTransaction`, `generate_id`, the
  default auth token, and the server behind the HTTP boundary) are
  modelled from the specification; each such definition says so in its
  doc comment.
-/

/-- A Python dict with string keys and string values, as an
insertion-ordered association list (used for HTTP header mappings). -/
abbrev Headers := List (String × String)

/-- Python dict assignment `d[k] = v`: replace the value in place if the
key is present, otherwise append the new pair at the end. -/
def dictSet (d : Headers) (k v : String) : Headers :=
  if d.any (fun p => p.1 = k) then
    d.map (fun p => if p.1 = k then (k, v) else p)
  else
    d ++ [(k, v)]

/-- A heap of header-dict cells; a reference is an index into `cells`.
This models Python object identity for the one mutable object the
clients share (the header dict). -/
structure Heap where
  cells : List Headers
deriving DecidableEq, Repr

/-- Allocate a fresh cell holding `v`; returns the new reference and heap. -/
def Heap.alloc (h : Heap) (v : Headers) : Nat × Heap :=
  (h.cells.length, ⟨h.cells ++ [v]⟩)

/-- Dereference a header cell (out-of-range reads give the empty dict;
never exercised by well-formed states). -/
def Heap.read (h : Heap) (r : Nat) : Headers :=
  h.cells.getD r []

/-- Overwrite the cell at reference `r` with `v` (in-place mutation of a
shared dict). -/
def Heap.write (h : Heap) (r : Nat) (v : Headers) : Heap :=
  ⟨h.cells.set r v⟩

/-- Python exceptions relevant to the client code.  `HKBError` is the
domain-specific error raised by the response validator, `HKpyError` the
generic client error; both exist with and without a `error=` cause.
The remaining constructors are ordinary Python exceptions. -/
inductive PyErr where
  | hkbError (msg : String)
  | hkbErrorC (msg : String) (cause : PyErr)
  | hkpyError (msg : String)
  | hkpyErrorC (msg : String) (cause : PyErr)
  | valueError
  | typeError
  | indexError
  | attributeError
  | otherExc (tag : String)
deriving DecidableEq, Repr

/-- Whether an exception is (an instance of) `HKBError`. -/
def PyErr.isHKB : PyErr → Bool
  | .hkbError _ => true
  | .hkbErrorC _ _ => true
  | _ => false

/-- Whether an exception is (an instance of) `HKpyError`. -/
def PyErr.isHKpy : PyErr → Bool
  | .hkpyError _ => true
  | .hkpyErrorC _ _ => true
  | _ => false

/-- The `except HKBError: raise / except Exception as err: raise
HKpyError(message=msg, error=err)` pattern of the base-client methods. -/
def wrapNonHKB (msg : String) (e : PyErr) : PyErr :=
  if e.isHKB then e else .hkpyErrorC msg e

/-- The `except (HKBError, HKpyError): raise / except Exception as err:
raise HKBError(message=msg, error=err)` pattern of
`HKRepository.get_entities`. -/
def wrapNonClient (msg : String) (e : PyErr) : PyErr :=
  if e.isHKB || e.isHKpy then e else .hkbErrorC msg e

/-- A plain JSON mapping describing one entity (the wire format and the
argument of `hkfy`).  Entity payload details are opaque to the client;
the id field and an opaque property list suffice for the claims. -/
structure EDict where
  id_ : String
  props : List (String × String)
deriving DecidableEq, Repr

/-- A domain entity object, produced by `hkfy` from a JSON mapping and
converted back by `to_dict`.  Its schema belongs to the external domain
library and is opaque to this wrapper. -/
structure HKEntity where
  id_ : String
  props : List (String × String)
deriving DecidableEq, Repr

/-- The entity object's `to_dict` conversion method. -/
def HKEntity.to_dict (e : HKEntity) : EDict :=
  ⟨e.id_, e.props⟩

/-- Modelled from the spec: `hkfy` is the external conversion function
from a JSON mapping to a typed entity object (inverse of `to_dict`). -/
def hkfy (d : EDict) : HKEntity :=
  ⟨d.id_, d.props⟩

/-- One element of a serialized JSON array: either a JSON object (an
entity mapping) or some other JSON-serializable Python value
(string/number/...), kept as an opaque tag. -/
inductive JElem where
  | obj (d : EDict)
  | prim (tag : String)
deriving DecidableEq, Repr

/-- The JSON-decoded body of an HTTP response, in the shapes the client
consumes: a JSON object keyed by entity id, a JSON array of repository
names, a JSON array of entity objects (query results), or nothing
relevant. -/
inductive JBody where
  | entities (m : List (String × EDict))
  | names (xs : List String)
  | entityList (xs : List EDict)
  | null
deriving DecidableEq, Repr

/-- The structured body of an outgoing HTTP request (what `json.dumps`
or a plain-text data argument would put on the wire). -/
inductive ReqBody where
  | jsonEntities (xs : List JElem)
  | jsonIds (xs : List String)
  | jsonFilter (d : List (String × String))
  | text (s : String)
  | raw (s : String)
  | empty
deriving DecidableEq, Repr

/-- One outgoing HTTP request as the `requests` library is invoked. -/
structure Request where
  method : String
  url : String
  body : ReqBody
  headers : Headers
  params : List (String × String)
deriving DecidableEq, Repr

/-- An HTTP response: status code and JSON-decoded body. -/
structure HTTPResponse where
  status : Nat
  body : JBody
deriving DecidableEq, Repr

/-- What one HTTP call does: either the server answers, or the
`requests` call itself raises an exception (network failure etc.). -/
inductive NetOutcome where
  | resp (r : HTTPResponse)
  | exc (e : PyErr)
deriving DecidableEq, Repr

/-- Modelled from the spec: the shared `response_validator` (in
`hkpy.utils`, not under `src/`) raises the domain-specific `HKBError` on
a non-success HTTP status and otherwise yields the `(status, body)`
pair with the body JSON-decoded. -/
def response_validator (r : HTTPResponse) : Except PyErr (Nat × JBody) :=
  if 200 ≤ r.status ∧ r.status < 300 then .ok (r.status, r.body)
  else .error (.hkbError "Invalid response status.")

/-- The outcome of the one `requests` call seen by the caller: the
response, or the exception the call raised. -/
def netResult (net : NetOutcome) : Except PyErr HTTPResponse :=
  match net with
  | .resp r => .ok r
  | .exc e => .error e

/-- The `response = requests...; _, data = response_validator(response)`
sequence: propagate the exception of the call itself, run the validator
on the response, keep the decoded body. -/
def validateBody (x : Except PyErr HTTPResponse) : Except PyErr JBody :=
  match x with
  | .error e => .error e
  | .ok r =>
    match response_validator r with
    | .error e => .error e
    | .ok (_, data) => .ok data

/-- The `response = requests...; response_validator(response)` sequence
of the mutation calls, which drop the decoded body. -/
def validateUnit (x : Except PyErr HTTPResponse) : Except PyErr Unit :=
  match x with
  | .error e => .error e
  | .ok r =>
    match response_validator r with
    | .error e => .error e
    | .ok _ => .ok ()

/-- Modelled from the spec: the process-wide default authentication
token constant (`constants.AUTH_TOKEN`, not under `src/`). -/
def AUTH_TOKEN : String := "default-auth-token"

/-- The base client (`HKBase`): connection configuration and the derived
URI strings; `headersRef` is the reference to its header dict on the
heap. -/
structure HKBase where
  url : String
  api_version : String
  base_uri : String
  repository_uri : String
  observer_uri : String
  headersRef : Nat
deriving DecidableEq, Repr

/-- The constructor `HKBase.__init__`: derives the URI strings and
allocates the header dict with content type and bearer token. -/
def HKBase.init (url api_version : String) (auth : Option String) (h : Heap) :
    HKBase × Heap :=
  let base_uri := url ++ "/" ++ api_version
  let a := auth.getD AUTH_TOKEN
  let hdrs := dictSet [("Content-Type", "application/json")]
    "Authorization" ("Bearer " ++ a)
  let (r, h2) := h.alloc hdrs
  (⟨url, api_version, base_uri, base_uri ++ "/repository",
    base_uri ++ "/observer", r⟩, h2)

/-- The repository client (`HKRepository`): back-reference to the base
client, repository name, and the header-dict reference stored by
`self._headers = base._headers`. -/
structure HKRepository where
  base : HKBase
  name : String
  headersRef : Nat
deriving DecidableEq, Repr

/-- The constructor `HKRepository.__init__`: stores the base reference,
the name, and the base's header dict reference (`self._headers =
base._headers` — the very same object, no copy is taken). -/
def HKRepository.init (base : HKBase) (name : String) : HKRepository :=
  ⟨base, name, base.headersRef⟩

/-- Modelled from the spec: `HKTransaction` (in `hkpy.hkbase`, not under
`src/`) is an identifier wrapper optionally bound to a repository; its
constructor takes the id and, when supplied, the repository, the
repository binding defaulting to none. -/
structure HKTransaction where
  id_ : String
  repository : Option HKRepository
deriving DecidableEq, Repr

/-- Modelled from the spec: `generate_id` (not under `src/`) generates a
fresh transaction identifier from the repository; the concrete id scheme
is irrelevant to the claims, only that some id string is produced. -/
def generate_id (repo : HKRepository) : String :=
  repo.name ++ ":generated-transaction-id"

/-- The method `HKRepository.create_transaction`: with an explicit id it
calls `HKTransaction(id_, self)`; without one it calls
`HKTransaction(id_=generate_id(self))`, passing no repository. -/
def HKRepository.create_transaction (repo : HKRepository)
    (id_ : Option String) : HKTransaction :=
  match id_ with
  | some i => ⟨i, some repo⟩
  | none => ⟨generate_id repo, none⟩

/-- An element of the `entities` argument of `add_entities`: a domain
entity object, a plain mapping, or any other Python value (`other`
stands for a JSON-serializable value that is neither, e.g. a number or a
string, kept as an opaque tag). -/
inductive EntArg where
  | entity (e : HKEntity)
  | dict (d : EDict)
  | other (tag : String)
deriving DecidableEq, Repr

/-- Whether an `entities` element is a domain entity object. -/
def EntArg.isEntity : EntArg → Bool
  | .entity _ => true
  | _ => false

/-- The `entities` argument itself: a single value or a Python list. -/
inductive EntitiesArg where
  | single (x : EntArg)
  | list (xs : List EntArg)
deriving DecidableEq, Repr

/-- Attribute access `x.to_dict()` on an `entities` element: succeeds on
entity objects, raises `AttributeError` on anything else. -/
def EntArg.to_dict : EntArg → Except PyErr EDict
  | .entity e => .ok e.to_dict
  | _ => .error .attributeError

/-- What `json.dumps` does with one `entities` element: mappings and
other JSON-serializable values are rendered; a domain entity object is
not JSON-serializable, so `json.dumps` raises `TypeError`. -/
def jsonDumpsElem : EntArg → Except PyErr JElem
  | .dict d => .ok (.obj d)
  | .other t => .ok (.prim t)
  | .entity _ => .error .typeError

/-- The entity-collection URL with trailing slash, used by the PUT and
DELETE entity calls. -/
def entityUrlSlash (repo : HKRepository) : String :=
  repo.base.repository_uri ++ "/" ++ repo.name ++ "/entity/"

/-- The entity-collection URL without trailing slash, used by the
filtered POST retrieval. -/
def entityUrl (repo : HKRepository) : String :=
  repo.base.repository_uri ++ "/" ++ repo.name ++ "/entity"

/-- The RDF-import URL. -/
def rdfUrl (repo : HKRepository) : String :=
  repo.base.repository_uri ++ "/" ++ repo.name ++ "/rdf"

/-- The query URL. -/
def queryUrl (repo : HKRepository) : String :=
  repo.base.repository_uri ++ "/" ++ repo.name ++ "/query/"

/-- The success-path tail of `add_entities`: deep-copy the stored
headers, force the JSON content type on the copy, and issue one PUT of
the serialized collection to the entity URL, validating the response. -/
def putEntities (repo : HKRepository) (h : Heap) (xs : List JElem)
    (net : NetOutcome) : Except PyErr Unit × List Request × Heap :=
  let headers := dictSet (h.read repo.headersRef)
    "Content-Type" "application/json"
  let req : Request := ⟨"PUT", entityUrlSlash repo, .jsonEntities xs,
    headers, []⟩
  (validateUnit (netResult net), [req], h)

/-- The method `HKRepository.add_entities`: wraps a non-list argument
into a one-element list, dispatches on the type of the FIRST element
(`entities[0]` — raising `IndexError` on an empty list): if it is an
entity object, every element is converted with `to_dict`; if it is a
mapping, the list is passed to `json.dumps` unchanged; otherwise
`ValueError`.  On the success path it issues one PUT with the
serialized collection. -/
def HKRepository.add_entities (repo : HKRepository) (h : Heap)
    (entities : EntitiesArg) (_transaction : Option HKTransaction)
    (net : NetOutcome) : Except PyErr Unit × List Request × Heap :=
  let ents := match entities with
    | .single x => [x]
    | .list xs => xs
  match ents with
  | [] => (.error .indexError, [], h)
  | x0 :: rest =>
    let ser : Except PyErr (List JElem) :=
      match x0 with
      | .entity _ => ((x0 :: rest).mapM EntArg.to_dict).map (·.map .obj)
      | .dict _ => (x0 :: rest).mapM jsonDumpsElem
      | .other _ => .error .valueError
    match ser with
    | .error e => (.error e, [], h)
    | .ok xs => putEntities repo h xs net

/-- The conversion `[hkfy(entity) for entity in data.values()]` at the
end of `get_entities`, outside its try-block: each value of a returned
JSON object becomes a domain entity object; `data.values()` on a body
that is not a JSON object raises `AttributeError` (unwrapped). -/
def valuesToEntities : Except PyErr JBody → Except PyErr (List HKEntity)
  | .error e => .error e
  | .ok (.entities m) => .ok (m.map (fun p => hkfy p.2))
  | .ok _ => .error .attributeError

/-- The `filter_` argument of `get_entities`: a raw query string, a
structured mapping, or any other Python value. -/
inductive FilterVal where
  | str (s : String)
  | dict (d : List (String × String))
  | other (tag : String)
deriving DecidableEq, Repr

/-- The method `HKRepository.get_entities`: inside a try-block, a string
filter is POSTed as plain text on a deep-copied header dict, a mapping
filter is POSTed as JSON on the stored headers, any other filter raises
`HKpyError`; the response goes through the validator.  `HKBError` and
`HKpyError` escape the try-block unchanged, any other exception is
wrapped into `HKBError` with the original as cause.  Outside the
try-block each value of the returned JSON object is converted with
`hkfy` (a non-object body makes `data.values()` raise `AttributeError`,
unwrapped). -/
def HKRepository.get_entities (repo : HKRepository) (h : Heap)
    (filter_ : FilterVal) (net : NetOutcome) :
    Except PyErr (List HKEntity) × List Request × Heap :=
  let url := entityUrl repo
  let attempt : Except PyErr JBody × List Request :=
    match filter_ with
    | .str s =>
      let tmp_headers := dictSet (h.read repo.headersRef)
        "Content-Type" "text/plain"
      let req : Request := ⟨"POST", url, .text s, tmp_headers, []⟩
      (validateBody (netResult net), [req])
    | .dict d =>
      let req : Request := ⟨"POST", url, .jsonFilter d,
        h.read repo.headersRef, []⟩
      (validateBody (netResult net), [req])
    | .other _ => (.error (.hkpyError "Invalid filter type."), [])
  (valuesToEntities
    (attempt.1.mapError (wrapNonClient "Could not retrieve the entities.")),
    attempt.2, h)

/-- An element of the `ids` argument of `delete_entities`: an id string,
an entity object, or any other (JSON-serializable) Python value. -/
inductive IdElem where
  | str (s : String)
  | entity (e : HKEntity)
  | other (tag : String)
deriving DecidableEq, Repr

/-- The `ids` argument itself: a single value or a Python list. -/
inductive IdsArg where
  | single (x : IdElem)
  | list (xs : List IdElem)
deriving DecidableEq, Repr

/-- Attribute access `x.id_` on an `ids` element. -/
def IdElem.getId : IdElem → Except PyErr String
  | .entity e => .ok e.id_
  | _ => .error .attributeError

/-- What `json.dumps` does with one `ids` element that was not converted
to an id: strings and other serializable values are rendered, an entity
object raises `TypeError`. -/
def jsonDumpsId : IdElem → Except PyErr String
  | .str s => .ok s
  | .other t => .ok t
  | .entity _ => .error .typeError

/-- The method `HKRepository.delete_entities`: wraps a non-list argument
into a one-element list; if the FIRST element (`ids[0]` — `IndexError`
on an empty list) is an entity object, every element is replaced by its
`id_`; the id list is JSON-serialized and sent in one DELETE on the
stored headers (no copy, no header mutation). -/
def HKRepository.delete_entities (repo : HKRepository) (h : Heap)
    (ids : IdsArg) (_transaction : Option HKTransaction)
    (net : NetOutcome) : Except PyErr Unit × List Request × Heap :=
  let url := entityUrlSlash repo
  let xs := match ids with
    | .single x => [x]
    | .list xs => xs
  match xs with
  | [] => (.error .indexError, [], h)
  | x0 :: rest =>
    let ser : Except PyErr (List String) :=
      match x0 with
      | .entity _ => (x0 :: rest).mapM IdElem.getId
      | _ => (x0 :: rest).mapM jsonDumpsId
    match ser with
    | .error e => (.error e, [], h)
    | .ok idStrs =>
      let req : Request := ⟨"DELETE", url, .jsonIds idStrs,
        h.read repo.headersRef, []⟩
      (validateUnit (netResult net), [req], h)

/-- The method `HKRepository.update_entities`: its body is exactly
`self.add_entities(entities, transaction)`. -/
def HKRepository.update_entities (repo : HKRepository) (h : Heap)
    (entities : EntitiesArg) (transaction : Option HKTransaction)
    (net : NetOutcome) : Except PyErr Unit × List Request × Heap :=
  repo.add_entities h entities transaction net

/-- The content of an import source, with JSON parsing modelled
structurally: `jsonOf v` is a text whose JSON parse yields the Python
value `v`, `notJson s` a raw text that is not valid JSON (a raw RDF
document, say). -/
inductive SourceContent where
  | jsonOf (v : EntitiesArg)
  | notJson (s : String)
deriving DecidableEq, Repr

/-- What `json.loads` does on a source content: yields the parsed value
or raises (`json.JSONDecodeError` is a subclass of `ValueError`). -/
def json_loads : SourceContent → Except PyErr EntitiesArg
  | .jsonOf v => .ok v
  | .notJson _ => .error .valueError

/-- A size measure standing for the byte length of the source text
(`len(fd.encode(utf-8))`); only its determinism matters to the claims. -/
def SourceContent.byteLen : SourceContent → Nat
  | .jsonOf _ => 0
  | .notJson s => s.utf8ByteSize

/-- A text rendering of the source content for the raw request body. -/
def SourceContent.asText : SourceContent → String
  | .jsonOf _ => "json-text"
  | .notJson s => s

/-- The `fd` argument of `import_data`: raw text, a text stream (read
fully into memory first), or any other Python value. -/
inductive ImportSource where
  | str (c : SourceContent)
  | stream (c : SourceContent)
  | other (tag : String)
deriving DecidableEq, Repr

/-- The `context` option of `import_data`: a raw id string or an
`HKContext` object (resolved to its `id_` field first). -/
inductive ContextArg where
  | str (s : String)
  | context (id_ : String)
deriving DecidableEq, Repr

/-- Resolution of the context option to the id placed in the
`context-parent` header. -/
def ContextArg.resolve : ContextArg → String
  | .str s => s
  | .context i => i

/-- The keyword options of `import_data` that the method inspects. -/
structure ImportOptions where
  as_hk : Option Bool
  context : Option ContextArg
deriving DecidableEq, Repr

/-- Rendering of the options into the `params=options` query-parameter
mapping of the RDF PUT (values rendered as opaque strings). -/
def ImportOptions.asParams (o : ImportOptions) : List (String × String) :=
  (match o.as_hk with
    | some b => [("as_hk", if b then "True" else "False")]
    | none => []) ++
  (match o.context with
    | some c => [("context", c.resolve)]
    | none => [])

/-- The method `HKRepository.import_data`: a stream source is read into
memory, a string is used as is, anything else raises `HKpyError`.  If
the `as_hk` option is present and equals `True`, the content is JSON
parsed and routed through `add_entities` (nothing else happens);
otherwise the raw content is PUT to the RDF endpoint on a copied header
dict carrying the datatype, the content length, and the optional
resolved parent-context id. -/
def HKRepository.import_data (repo : HKRepository) (h : Heap)
    (fd : ImportSource) (datatype : String) (options : ImportOptions)
    (net : NetOutcome) : Except PyErr Unit × List Request × Heap :=
  let content? : Except PyErr SourceContent :=
    match fd with
    | .stream c => .ok c
    | .str c => .ok c
    | .other _ => .error (.hkpyError "Data formaat not supported.")
  match content? with
  | .error e => (.error e, [], h)
  | .ok c =>
    if options.as_hk = some true then
      match json_loads c with
      | .error e => (.error e, [], h)
      | .ok v => repo.add_entities h v none net
    else
      let url := rdfUrl repo
      let tmp0 := dictSet (dictSet (h.read repo.headersRef)
        "Content-Type" datatype) "Content-Length" (toString c.byteLen)
      let tmp_headers := match options.context with
        | some ctx => dictSet tmp0 "context-parent" ctx.resolve
        | none => tmp0
      let req : Request := ⟨"PUT", url, .raw c.asText, tmp_headers,
        options.asParams⟩
      (validateUnit (netResult net), [req], h)

/-- The method `HKRepository.clear`: fetches all entities with the empty
mapping as filter, then deletes exactly the fetched entities.  The two
HTTP calls see the network outcomes `netGet` and `netDel` in that
order. -/
def HKRepository.clear (repo : HKRepository) (h : Heap)
    (netGet netDel : NetOutcome) : Except PyErr Unit × List Request × Heap :=
  match repo.get_entities h (.dict []) netGet with
  | (.error e, tr, h2) => (.error e, tr, h2)
  | (.ok entities, tr, h2) =>
    match repo.delete_entities h2 (.list (entities.map .entity)) none netDel with
    | (r2, tr2, h3) => (r2, tr ++ tr2, h3)

/-- The method `HKRepository.hyql`: POSTs the raw query string to the
query endpoint on a deep-copied plain-text header dict, validates, and
converts the returned collection (iterated as a plain sequence) with
`hkfy`; a body that is not such a sequence of entity objects fails the
conversion (modelled as `TypeError`, unwrapped — the method has no
try-block). -/
def HKRepository.hyql (repo : HKRepository) (h : Heap) (query : String)
    (net : NetOutcome) : Except PyErr (List HKEntity) × List Request × Heap :=
  let headers := dictSet (h.read repo.headersRef) "Content-Type" "text/plain"
  let req : Request := ⟨"POST", queryUrl repo, .text query, headers, []⟩
  let res : Except PyErr (List HKEntity) :=
    match validateBody (netResult net) with
    | .error e => .error e
    | .ok (.entityList xs) => .ok (xs.map hkfy)
    | .ok _ => .error .typeError
  (res, [req], h)

/-- The method `HKBase._view_repositories`: GETs the repository listing
on the stored headers inside a try-block; `HKBError` escapes unchanged,
any other exception is wrapped into `HKpyError` with the original as
cause; the decoded body is returned (a non-listing body is a malformed
payload, modelled as `TypeError` raised inside the try-block and hence
wrapped). -/
def HKBase._view_repositories (base : HKBase) (h : Heap)
    (net : NetOutcome) : Except PyErr (List String) × List Request :=
  let req : Request := ⟨"GET", base.repository_uri, .empty,
    h.read base.headersRef, []⟩
  let attempt : Except PyErr (List String) :=
    match validateBody (netResult net) with
    | .error e => .error e
    | .ok (.names xs) => .ok xs
    | .ok _ => .error .typeError
  (attempt.mapError (wrapNonHKB "Could not retrieve existing repositories."),
    [req])

/-- The method `HKBase.connect_repository`: returns a repository client
bound to this base and name when the name appears in the server's
current listing, otherwise raises `HKpyError` with the could-not-connect
message.  The listing GET sees the network outcome `net`. -/
def HKBase.connect_repository (base : HKBase) (h : Heap) (name : String)
    (net : NetOutcome) : Except PyErr HKRepository × List Request × Heap :=
  match base._view_repositories h net with
  | (.error e, tr) => (.error e, tr, h)
  | (.ok repos, tr) =>
    if repos.contains name then
      (.ok (HKRepository.init base name), tr, h)
    else
      (.error (.hkpyError "Could not connect to repository."), tr, h)

/-- The method `HKBase.create_repository`: PUTs to the repository URL
inside a try-block and returns a new repository client; `HKBError`
escapes unchanged, any other exception is wrapped into `HKpyError`
with message and cause. -/
def HKBase.create_repository (base : HKBase) (h : Heap) (name : String)
    (net : NetOutcome) : Except PyErr HKRepository × List Request × Heap :=
  let url := base.repository_uri ++ "/" ++ name ++ "/"
  let req : Request := ⟨"PUT", url, .empty, h.read base.headersRef, []⟩
  let attempt : Except PyErr HKRepository :=
    (validateUnit (netResult net)).map (fun _ => HKRepository.init base name)
  (attempt.mapError (wrapNonHKB "Repository not created."), [req], h)

/-- The method `HKBase.delete_repository`: DELETEs the repository URL
inside a try-block; `HKBError` escapes unchanged, any other exception is
wrapped into `HKpyError` with message and cause; no return value. -/
def HKBase.delete_repository (base : HKBase) (h : Heap) (name : String)
    (net : NetOutcome) : Except PyErr Unit × List Request × Heap :=
  let url := base.repository_uri ++ "/" ++ name ++ "/"
  let req : Request := ⟨"DELETE", url, .empty, h.read base.headersRef, []⟩
  ((validateUnit (netResult net)).mapError (wrapNonHKB "Repository not deleted."),
    [req], h)

/-- Modelled from the spec: the server's entity store for one
repository, as the list of stored entity mappings (the external
collaborator behind the HTTP boundary). -/
abbrev Server := List EDict

/-- Modelled from the spec: the server's answer to the empty-filter
retrieval POST — a success response whose body is the JSON object of
all stored entities keyed by id. -/
def Server.getAllOutcome (srv : Server) : NetOutcome :=
  .resp ⟨200, .entities (srv.map (fun e => (e.id_, e)))⟩

/-- Modelled from the spec: the effect of one issued request on the
server store; a DELETE with an id-list body removes the listed ids
(other requests are irrelevant to the claims and leave the store as
is). -/
def Server.applyReq (srv : Server) (req : Request) : Server :=
  if req.method = "DELETE" then
    match req.body with
    | .jsonIds ids => srv.filter (fun e => !(ids.contains e.id_))
    | _ => srv
  else srv

/-- The server store after a trace of issued requests. -/
def Server.afterRequests (srv : Server) (reqs : List Request) : Server :=
  reqs.foldl Server.applyReq srv

/-- Decidable equality for `Except` results, so concrete runs can be
settled by `decide`. -/
instance {ε α : Type} [DecidableEq ε] [DecidableEq α] :
    DecidableEq (Except ε α) := fun x y =>
  match x, y with
  | .ok a, .ok b =>
    if hab : a = b then .isTrue (by rw [hab])
    else .isFalse (fun hc => hab (by cases hc; rfl))
  | .error a, .error b =>
    if hab : a = b then .isTrue (by rw [hab])
    else .isFalse (fun hc => hab (by cases hc; rfl))
  | .ok _, .error _ => .isFalse (fun hc => Except.noConfusion hc)
  | .error _, .ok _ => .isFalse (fun hc => Except.noConfusion hc)

/-- A concrete base client for concrete runs: empty starting heap,
default token. -/
def demoBase : HKBase := (HKBase.init "http://hk" "v2" none ⟨[]⟩).1

/-- The heap after constructing `demoBase`. -/
def demoHeap : Heap := (HKBase.init "http://hk" "v2" none ⟨[]⟩).2

/-- A concrete repository client over `demoBase`. -/
def demoRepo : HKRepository := HKRepository.init demoBase "myrepo"

/-- A concrete domain entity object. -/
def demoEntity : HKEntity := ⟨"e1", [("type", "node")]⟩

/-- A concrete plain entity mapping. -/
def demoDict : EDict := ⟨"d1", [("type", "ref")]⟩

/-- A concrete successful empty HTTP answer. -/
def netOk : NetOutcome := .resp ⟨200, .null⟩

/-- C8: for every entities argument and every optional transaction,
`update_entities` behaves identically to `add_entities` — same request,
same result, same errors; its body is exactly the call to
`add_entities`. -/
theorem update_entities_is_add_entities (repo : HKRepository) (h : Heap)
    (entities : EntitiesArg) (transaction : Option HKTransaction)
    (net : NetOutcome) :
    repo.update_entities h entities transaction net =
      repo.add_entities h entities transaction net := rfl

/-- C2: `connect_repository(name)` returns a repository client bound to
this base client and name if and only if the name appears in the
server's current repository listing, and otherwise raises the
could-not-connect `HKpyError`. -/
theorem connect_repository_iff_listed (base : HKBase) (h : Heap)
    (name : String) (listing : List String) :
    ((base.connect_repository h name (.resp ⟨200, .names listing⟩)).1
        = .ok (HKRepository.init base name) ↔ name ∈ listing) ∧
    ((base.connect_repository h name (.resp ⟨200, .names listing⟩)).1
        = .error (.hkpyError "Could not connect to repository.")
      ↔ name ∉ listing) ∧
    (HKRepository.init base name).base = base ∧
    (HKRepository.init base name).name = name := by
  refine ⟨?_, ?_, rfl, rfl⟩ <;>
  · by_cases hm : name ∈ listing <;>
      simp [HKBase.connect_repository, HKBase._view_repositories,
        netResult, validateBody, response_validator, List.contains,
        Except.mapError, wrapNonHKB, hm]

/-- C10: `add_entities` and `delete_entities` on an empty list index the
first element of the collection and fail with an unguarded
`IndexError` before any request is issued; consequently `clear` on a
repository whose fetch returns no entities fails with `IndexError`
after the fetch POST, before any DELETE request is issued. -/
theorem empty_collection_index_error (repo : HKRepository) (h : Heap)
    (t : Option HKTransaction) (net netDel : NetOutcome) :
    repo.add_entities h (.list []) t net = (.error .indexError, [], h) ∧
    repo.delete_entities h (.list []) t net = (.error .indexError, [], h) ∧
    repo.clear h (Server.getAllOutcome []) netDel =
      (.error .indexError,
        [⟨"POST", entityUrl repo, .jsonFilter [],
          h.read repo.headersRef, []⟩], h) := by
  exact ⟨rfl, rfl, rfl⟩

/-- C3 counterexample: on a concrete repository client,
`create_transaction()` with no id returns a transaction whose
repository binding is `none`, not this repository — refuting the claim
that the binding to this repository still holds when no id is
supplied. -/
theorem create_transaction_unbound_counterexample :
    (demoRepo.create_transaction none).repository = none ∧
    (demoRepo.create_transaction none).repository ≠ some demoRepo := by
  decide

/-- C3 amended: `create_transaction` with an explicit id returns a
transaction carrying that id and bound to this repository; with no id
it returns a transaction carrying a generated id and bound to no
repository (the constructor call passes only the generated id). -/
theorem create_transaction_binding (repo : HKRepository) (i : String) :
    repo.create_transaction (some i) = ⟨i, some repo⟩ ∧
    repo.create_transaction none = ⟨generate_id repo, none⟩ :=
  ⟨rfl, rfl⟩

/-- C7: `get_entities` sends a string filter as plain text and a mapping
filter as JSON, issues exactly one POST in either case whatever the
network does, converts each value of a returned JSON object back into a
domain entity object, and raises the invalid-filter `HKpyError`
immediately — with no request issued and no wrapping — on a filter that
is neither a string nor a mapping. -/
theorem get_entities_filter_dispatch (repo : HKRepository) (h : Heap)
    (s : String) (d : List (String × String)) (tag : String)
    (net : NetOutcome) (m : List (String × EDict)) :
    ((repo.get_entities h (.str s) net).2.1 =
      [⟨"POST", entityUrl repo, .text s,
        dictSet (h.read repo.headersRef) "Content-Type" "text/plain", []⟩]) ∧
    ((repo.get_entities h (.dict d) net).2.1 =
      [⟨"POST", entityUrl repo, .jsonFilter d,
        h.read repo.headersRef, []⟩]) ∧
    ((repo.get_entities h (.dict d) (.resp ⟨200, .entities m⟩)).1 =
      .ok (m.map (fun p => hkfy p.2))) ∧
    (repo.get_entities h (.other tag) net =
      (.error (.hkpyError "Invalid filter type."), [], h)) := by
  refine ⟨rfl, rfl, ?_, ?_⟩
  · simp [HKRepository.get_entities, netResult, validateBody,
      response_validator, valuesToEntities, Except.mapError, wrapNonClient,
      PyErr.isHKB, PyErr.isHKpy]
  · simp [HKRepository.get_entities, wrapNonClient, PyErr.isHKB,
      PyErr.isHKpy, valuesToEntities, Except.mapError]

/-- C1 counterexample: on a concrete repository client, a non-client
exception thrown during `get_entities` (a connection failure) is
wrapped into the domain-specific `HKBError` — not into the generic
client error `HKpyError` as the claim states for every operation: the
raised error fails the `HKpyError` instance test; and the same
exception thrown during `add_entities` is not caught at all — it
propagates raw, neither wrapped into `HKpyError` nor into any client
error. -/
theorem get_entities_wraps_into_hkberror_counterexample :
    (demoRepo.get_entities demoHeap (.dict [])
        (.exc (.otherExc "connection failure"))).1 =
      .error (.hkbErrorC "Could not retrieve the entities."
        (.otherExc "connection failure")) ∧
    PyErr.isHKpy (.hkbErrorC "Could not retrieve the entities."
      (.otherExc "connection failure")) = false ∧
    PyErr.isHKB (.hkbErrorC "Could not retrieve the entities."
      (.otherExc "connection failure")) = true ∧
    (demoRepo.add_entities demoHeap (.list [.dict demoDict]) none
        (.exc (.otherExc "connection failure"))).1 =
      .error (.otherExc "connection failure") ∧
    PyErr.isHKpy (.otherExc "connection failure") = false ∧
    PyErr.isHKB (.otherExc "connection failure") = false := by
  decide

/-- C1 amended: the base client's create/delete/list repository calls
propagate `HKBError` unchanged and wrap any other exception into the
generic `HKpyError` carrying a message and the original exception as
cause; a non-success HTTP status makes the validator raise `HKBError`,
which each call propagates unchanged; `get_entities`, however,
propagates `HKBError` and `HKpyError` unchanged but wraps any other
exception into `HKBError` (not `HKpyError`), again carrying a message
and the original exception as cause; and the remaining repository
operations (`add_entities`, `delete_entities`, `update_entities`,
`hyql`) have no handler at all and propagate every exception
unchanged. -/
theorem error_wrapping_policy (base : HKBase) (repo : HKRepository)
    (h : Heap) (name m : String) (e : PyErr) (st : Nat) (d0 : EDict)
    (he : e.isHKB = false) (hp : e.isHKpy = false)
    (hst : ¬(200 ≤ st ∧ st < 300)) :
    ((base.create_repository h name (.exc (.hkbError m))).1 =
      .error (.hkbError m)) ∧
    ((base.create_repository h name (.exc e)).1 =
      .error (.hkpyErrorC "Repository not created." e)) ∧
    ((base.create_repository h name (.resp ⟨st, .null⟩)).1 =
      .error (.hkbError "Invalid response status.")) ∧
    ((base.delete_repository h name (.exc (.hkbError m))).1 =
      .error (.hkbError m)) ∧
    ((base.delete_repository h name (.exc e)).1 =
      .error (.hkpyErrorC "Repository not deleted." e)) ∧
    ((base.delete_repository h name (.resp ⟨st, .null⟩)).1 =
      .error (.hkbError "Invalid response status.")) ∧
    ((base._view_repositories h (.exc (.hkbError m))).1 =
      .error (.hkbError m)) ∧
    ((base._view_repositories h (.exc e)).1 =
      .error (.hkpyErrorC "Could not retrieve existing repositories." e)) ∧
    ((base._view_repositories h (.resp ⟨st, .null⟩)).1 =
      .error (.hkbError "Invalid response status.")) ∧
    ((repo.get_entities h (.str "q") (.exc (.hkbError m))).1 =
      .error (.hkbError m)) ∧
    ((repo.get_entities h (.str "q") (.exc (.hkpyError m))).1 =
      .error (.hkpyError m)) ∧
    ((repo.get_entities h (.str "q") (.exc e)).1 =
      .error (.hkbErrorC "Could not retrieve the entities." e)) ∧
    ((repo.get_entities h (.str "q") (.resp ⟨st, .null⟩)).1 =
      .error (.hkbError "Invalid response status.")) ∧
    ((repo.add_entities h (.list [.dict d0]) none (.exc e)).1 = .error e) ∧
    ((repo.delete_entities h (.list [.str m]) none (.exc e)).1 = .error e) ∧
    ((repo.update_entities h (.list [.dict d0]) none (.exc e)).1 = .error e) ∧
    ((repo.hyql h m (.exc e)).1 = .error e) := by
  simp only [PyErr.isHKB, PyErr.isHKpy] at he hp
  refine ⟨?_, ?_, ?_, ?_, ?_, ?_, ?_, ?_, ?_, ?_, ?_, ?_, ?_, ?_, ?_, ?_,
    ?_⟩ <;>
    first
      | rfl
      | simp [HKBase.create_repository, HKBase.delete_repository,
          HKBase._view_repositories, HKRepository.get_entities,
          HKRepository.add_entities, HKRepository.delete_entities,
          HKRepository.update_entities, HKRepository.hyql, putEntities,
          netResult, validateBody, validateUnit, valuesToEntities,
          response_validator, Except.mapError, Except.map, wrapNonHKB,
          wrapNonClient, PyErr.isHKB, PyErr.isHKpy, he, hp, hst]

/-- C1 amended, witness: the amended wrapping policy at a concrete
base, repository, heap, name, exception and status. -/
theorem error_wrapping_policy_witness :
    ((demoBase.create_repository demoHeap "r1" (.exc (.hkbError "bad"))).1 =
      .error (.hkbError "bad")) ∧
    ((demoBase.create_repository demoHeap "r1" (.exc (.otherExc "io"))).1 =
      .error (.hkpyErrorC "Repository not created." (.otherExc "io"))) ∧
    ((demoBase.create_repository demoHeap "r1" (.resp ⟨404, .null⟩)).1 =
      .error (.hkbError "Invalid response status.")) ∧
    ((demoBase.delete_repository demoHeap "r1" (.exc (.hkbError "bad"))).1 =
      .error (.hkbError "bad")) ∧
    ((demoBase.delete_repository demoHeap "r1" (.exc (.otherExc "io"))).1 =
      .error (.hkpyErrorC "Repository not deleted." (.otherExc "io"))) ∧
    ((demoBase.delete_repository demoHeap "r1" (.resp ⟨404, .null⟩)).1 =
      .error (.hkbError "Invalid response status.")) ∧
    ((demoBase._view_repositories demoHeap (.exc (.hkbError "bad"))).1 =
      .error (.hkbError "bad")) ∧
    ((demoBase._view_repositories demoHeap (.exc (.otherExc "io"))).1 =
      .error (.hkpyErrorC "Could not retrieve existing repositories."
        (.otherExc "io"))) ∧
    ((demoBase._view_repositories demoHeap (.resp ⟨404, .null⟩)).1 =
      .error (.hkbError "Invalid response status.")) ∧
    ((demoRepo.get_entities demoHeap (.str "q") (.exc (.hkbError "bad"))).1 =
      .error (.hkbError "bad")) ∧
    ((demoRepo.get_entities demoHeap (.str "q") (.exc (.hkpyError "bad"))).1 =
      .error (.hkpyError "bad")) ∧
    ((demoRepo.get_entities demoHeap (.str "q") (.exc (.otherExc "io"))).1 =
      .error (.hkbErrorC "Could not retrieve the entities."
        (.otherExc "io"))) ∧
    ((demoRepo.get_entities demoHeap (.str "q") (.resp ⟨404, .null⟩)).1 =
      .error (.hkbError "Invalid response status.")) ∧
    ((demoRepo.add_entities demoHeap (.list [.dict demoDict]) none
        (.exc (.otherExc "io"))).1 = .error (.otherExc "io")) ∧
    ((demoRepo.delete_entities demoHeap (.list [.str "bad"]) none
        (.exc (.otherExc "io"))).1 = .error (.otherExc "io")) ∧
    ((demoRepo.update_entities demoHeap (.list [.dict demoDict]) none
        (.exc (.otherExc "io"))).1 = .error (.otherExc "io")) ∧
    ((demoRepo.hyql demoHeap "bad" (.exc (.otherExc "io"))).1 =
      .error (.otherExc "io")) :=
  error_wrapping_policy demoBase demoRepo demoHeap "r1" "bad"
    (.otherExc "io") 404 demoDict (by decide) (by decide) (by decide)

/-- The serialized JSON form of one `entities` element on the success
paths of `add_entities`: an entity object contributes its `to_dict`
mapping, a plain mapping goes through unchanged, any other
JSON-serializable value is rendered as itself. -/
def serializedElem : EntArg → JElem
  | .entity e => .obj e.to_dict
  | .dict d => .obj d
  | .other t => .prim t

/-- Characterization of `List.mapM` over `Except` on a cons cell, used
to reason about the element-wise serializations. -/
theorem exceptMapM_cons {a b : Type} (f : a → Except PyErr b) (x : a)
    (l : List a) :
    (x :: l).mapM f =
      match f x with
      | .error e => .error e
      | .ok y =>
        match l.mapM f with
        | .error e => .error e
        | .ok ys => .ok (y :: ys) := by
  rw [← List.mapM'_eq_mapM, ← List.mapM'_eq_mapM]
  show (f x >>= fun y => l.mapM' f >>= fun ys => pure (y :: ys)) = _
  cases f x with
  | error e => rfl
  | ok y =>
    cases l.mapM' f with
    | error e => rfl
    | ok ys => rfl

/-- On a list of entity objects, the `[x.to_dict() for x in entities]`
comprehension succeeds and converts every element. -/
theorem mapM_to_dict_entities (xs : List EntArg)
    (hall : xs.all EntArg.isEntity = true) :
    (xs.mapM EntArg.to_dict).map (·.map JElem.obj) =
      .ok (xs.map serializedElem) := by
  induction xs with
  | nil => rfl
  | cons a l ih =>
    simp only [List.all_cons, Bool.and_eq_true] at hall
    obtain ⟨ha, hl⟩ := hall
    cases a with
    | entity e =>
      have ihl := ih hl
      cases hml : l.mapM EntArg.to_dict with
      | error e2 =>
        rw [hml] at ihl
        simp [Except.map] at ihl
      | ok ds =>
        rw [hml] at ihl
        simp only [Except.map] at ihl
        injection ihl with hds
        rw [exceptMapM_cons, hml]
        simp only [EntArg.to_dict, Except.map, List.map_cons, serializedElem,
          hds]
    | dict d => simp [EntArg.isEntity] at ha
    | other t => simp [EntArg.isEntity] at ha

/-- On a list containing a non-entity element, the
`[x.to_dict() for x in entities]` comprehension raises
`AttributeError`. -/
theorem mapM_to_dict_mixed (xs : List EntArg)
    (hmix : xs.all EntArg.isEntity = false) :
    xs.mapM EntArg.to_dict = .error .attributeError := by
  induction xs with
  | nil => simp at hmix
  | cons a l ih =>
    simp only [List.all_cons, Bool.and_eq_false_iff] at hmix
    cases a with
    | entity e =>
      have hl : l.all EntArg.isEntity = false := by
        rcases hmix with hx | hl
        · simp [EntArg.isEntity] at hx
        · exact hl
      rw [exceptMapM_cons, ih hl]
      rfl
    | dict d =>
      rw [exceptMapM_cons]
      rfl
    | other t =>
      rw [exceptMapM_cons]
      rfl

/-- On a list with no entity object, `json.dumps` serializes every
element unchanged. -/
theorem mapM_dumps_no_entity (xs : List EntArg)
    (hno : xs.any EntArg.isEntity = false) :
    xs.mapM jsonDumpsElem = .ok (xs.map serializedElem) := by
  induction xs with
  | nil => rfl
  | cons a l ih =>
    simp only [List.any_cons, Bool.or_eq_false_iff] at hno
    obtain ⟨ha, hl⟩ := hno
    cases a with
    | entity e => simp [EntArg.isEntity] at ha
    | dict d =>
      rw [exceptMapM_cons, ih hl]
      simp [jsonDumpsElem, serializedElem]
    | other t =>
      rw [exceptMapM_cons, ih hl]
      simp [jsonDumpsElem, serializedElem]

/-- On a list containing an entity object, `json.dumps` raises
`TypeError` (entity objects are not JSON serializable). -/
theorem mapM_dumps_with_entity (xs : List EntArg)
    (hyes : xs.any EntArg.isEntity = true) :
    xs.mapM jsonDumpsElem = .error .typeError := by
  induction xs with
  | nil => simp at hyes
  | cons a l ih =>
    simp only [List.any_cons, Bool.or_eq_true] at hyes
    cases a with
    | entity e =>
      rw [exceptMapM_cons]
      rfl
    | dict d =>
      have hl : l.any EntArg.isEntity = true := by
        rcases hyes with hx | hl
        · simp [EntArg.isEntity] at hx
        · exact hl
      rw [exceptMapM_cons, ih hl]
      rfl
    | other t =>
      have hl : l.any EntArg.isEntity = true := by
        rcases hyes with hx | hl
        · simp [EntArg.isEntity] at hx
        · exact hl
      rw [exceptMapM_cons, ih hl]
      rfl

/-- C4 counterexample: on a concrete repository client, `add_entities`
with the list made of one plain mapping followed by one value that is
neither an entity object nor a mapping succeeds and issues the PUT —
the claimed per-element type error is never raised, because the code
inspects only the type of the first element. -/
theorem add_entities_no_per_element_check_counterexample :
    (demoRepo.add_entities demoHeap (.list [.dict demoDict, .other "42"])
        none netOk).1 = .ok () ∧
    (demoRepo.add_entities demoHeap (.list [.dict demoDict, .other "42"])
        none netOk).1 ≠ .error .valueError ∧
    (demoRepo.add_entities demoHeap (.list [.dict demoDict, .other "42"])
        none netOk).1 ≠ .error .typeError := by
  decide

/-- C4 amended: `add_entities` treats a single non-list argument as a
one-element list and then dispatches on the type of the FIRST element
only.  First element an entity object: every element is converted via
`to_dict` and the collection is serialized to JSON and sent in a single
PUT, but a later non-entity element raises `AttributeError` (no
request).  First element a plain mapping: the whole list is passed to
JSON serialization unchanged — later non-mapping serializable values
are sent as-is rather than rejected, and a later entity object raises
`TypeError` from `json.dumps` (no request).  Only a FIRST element that
is neither raises `ValueError`. -/
theorem add_entities_first_element_dispatch (repo : HKRepository)
    (h : Heap) (t : Option HKTransaction) (net : NetOutcome) (x : EntArg)
    (e0 : HKEntity) (d0 : EDict) (tag : String)
    (restE restD restX : List EntArg)
    (hallE : restE.all EntArg.isEntity = true)
    (hnoD : restD.any EntArg.isEntity = false)
    (hmixA : restX.all EntArg.isEntity = false)
    (hmixB : restX.any EntArg.isEntity = true) :
    (repo.add_entities h (.single x) t net =
      repo.add_entities h (.list [x]) t net) ∧
    (repo.add_entities h (.list (.entity e0 :: restE)) t net =
      putEntities repo h ((EntArg.entity e0 :: restE).map serializedElem) net) ∧
    (repo.add_entities h (.list (.entity e0 :: restX)) t net =
      (.error .attributeError, [], h)) ∧
    (repo.add_entities h (.list (.dict d0 :: restD)) t net =
      putEntities repo h ((EntArg.dict d0 :: restD).map serializedElem) net) ∧
    (repo.add_entities h (.list (.dict d0 :: restX)) t net =
      (.error .typeError, [], h)) ∧
    (repo.add_entities h (.list (.other tag :: restE)) t net =
      (.error .valueError, [], h)) ∧
    (∀ xs : List JElem, (putEntities repo h xs net).2.1 =
      [⟨"PUT", entityUrlSlash repo, .jsonEntities xs,
        dictSet (h.read repo.headersRef) "Content-Type" "application/json",
        []⟩]) := by
  refine ⟨rfl, ?_, ?_, ?_, ?_, rfl, fun xs => rfl⟩
  · have hall : (EntArg.entity e0 :: restE).all EntArg.isEntity = true := by
      simp [List.all_cons, EntArg.isEntity, hallE]
    have hser := mapM_to_dict_entities (EntArg.entity e0 :: restE) hall
    simp only [HKRepository.add_entities, hser, List.map_cons]
  · have hmix : (EntArg.entity e0 :: restX).all EntArg.isEntity = false := by
      simp [List.all_cons, EntArg.isEntity, hmixA]
    have hser := mapM_to_dict_mixed (EntArg.entity e0 :: restX) hmix
    simp only [HKRepository.add_entities, hser, Except.map]
  · have hno : (EntArg.dict d0 :: restD).any EntArg.isEntity = false := by
      simp [List.any_cons, EntArg.isEntity, hnoD]
    have hser := mapM_dumps_no_entity (EntArg.dict d0 :: restD) hno
    simp only [HKRepository.add_entities, hser, List.map_cons]
  · have hyes : (EntArg.dict d0 :: restX).any EntArg.isEntity = true := by
      simp [List.any_cons, hmixB]
    have hser := mapM_dumps_with_entity (EntArg.dict d0 :: restX) hyes
    simp only [HKRepository.add_entities, hser]

/-- C4 amended, witness: the first-element dispatch at concrete inputs —
a mixed list headed by a mapping is sent unchanged, a mixed list headed
by an entity fails with `AttributeError`, a mapping-headed list with a
trailing entity fails with `TypeError`, and an unsupported first
element fails with `ValueError`. -/
theorem add_entities_first_element_dispatch_witness :
    (demoRepo.add_entities demoHeap (.single (.dict demoDict)) none netOk =
      demoRepo.add_entities demoHeap (.list [.dict demoDict]) none netOk) ∧
    (demoRepo.add_entities demoHeap
        (.list [.entity demoEntity, .entity ⟨"e2", []⟩]) none netOk =
      putEntities demoRepo demoHeap
        ([EntArg.entity demoEntity, EntArg.entity ⟨"e2", []⟩].map
          serializedElem) netOk) ∧
    (demoRepo.add_entities demoHeap
        (.list [.entity demoEntity, .dict demoDict, .entity demoEntity])
        none netOk = (.error .attributeError, [], demoHeap)) ∧
    (demoRepo.add_entities demoHeap
        (.list [.dict demoDict, .dict ⟨"d2", []⟩, .other "42"]) none netOk =
      putEntities demoRepo demoHeap
        ([EntArg.dict demoDict, EntArg.dict ⟨"d2", []⟩,
          EntArg.other "42"].map serializedElem) netOk) ∧
    (demoRepo.add_entities demoHeap
        (.list [.dict demoDict, .dict demoDict, .entity demoEntity])
        none netOk = (.error .typeError, [], demoHeap)) ∧
    (demoRepo.add_entities demoHeap
        (.list [.other "none-value", .entity ⟨"e2", []⟩]) none netOk =
      (.error .valueError, [], demoHeap)) ∧
    ((putEntities demoRepo demoHeap [JElem.obj demoDict] netOk).2.1 =
      [⟨"PUT", entityUrlSlash demoRepo, .jsonEntities [JElem.obj demoDict],
        dictSet (demoHeap.read demoRepo.headersRef)
          "Content-Type" "application/json", []⟩]) := by
  have T := add_entities_first_element_dispatch demoRepo demoHeap none netOk
    (.dict demoDict) demoEntity demoDict "none-value"
    [.entity ⟨"e2", []⟩] [.dict ⟨"d2", []⟩, .other "42"]
    [.dict demoDict, .entity demoEntity]
    (by decide) (by decide) (by decide) (by decide)
  exact ⟨T.1, T.2.1, by decide, T.2.2.2.1, by decide, by decide,
    T.2.2.2.2.2.2 [JElem.obj demoDict]⟩

/-- On a list of entity objects passed as `ids`, the
`[x.id_ for x in ids]` comprehension yields their id fields. -/
theorem mapM_getId_entities (l : List HKEntity) :
    (l.map IdElem.entity).mapM IdElem.getId = .ok (l.map HKEntity.id_) := by
  induction l with
  | nil => rfl
  | cons a l ih =>
    simp only [List.map_cons]
    rw [exceptMapM_cons, ih]
    rfl

/-- Deleting from a store exactly the ids of its own entries leaves the
store empty. -/
theorem filter_own_ids (l : List EDict) :
    l.filter (fun e => !((l.map EDict.id_).contains e.id_)) = [] := by
  rw [List.filter_eq_nil_iff]
  intro x hx
  simp only [List.contains, List.elem_eq_mem, Bool.not_eq_true',
    decide_eq_false_iff_not, not_not]
  exact List.mem_map_of_mem EDict.id_ hx

/-- The empty-filter fetch against a server holding `srv` succeeds with
every stored entity converted to a domain object, in one POST. -/
theorem get_entities_all (repo : HKRepository) (h : Heap) (srv : Server) :
    repo.get_entities h (.dict []) srv.getAllOutcome =
      (.ok (srv.map (fun e => hkfy e)),
        [⟨"POST", entityUrl repo, .jsonFilter [],
          h.read repo.headersRef, []⟩], h) := by
  simp [HKRepository.get_entities, Server.getAllOutcome, netResult,
    validateBody, response_validator, valuesToEntities, Except.mapError,
    List.map_map, Function.comp]

/-- C5: `clear` performs exactly two requests in order — the empty-filter
fetch POST, then one DELETE carrying exactly the ids of the fetched
entities; on a non-empty store (and no concurrent writer, the server
seeing only these two requests) the store is empty afterwards and a
subsequent empty-filter `get_entities` returns the empty collection. -/
theorem clear_empties_repository (repo : HKRepository) (h : Heap)
    (srv : Server) (hne : srv ≠ []) :
    (repo.clear h srv.getAllOutcome (.resp ⟨200, .null⟩)).1 = .ok () ∧
    (repo.clear h srv.getAllOutcome (.resp ⟨200, .null⟩)).2.1 =
      [⟨"POST", entityUrl repo, .jsonFilter [],
        h.read repo.headersRef, []⟩,
       ⟨"DELETE", entityUrlSlash repo, .jsonIds (srv.map EDict.id_),
        h.read repo.headersRef, []⟩] ∧
    Server.afterRequests srv
      (repo.clear h srv.getAllOutcome (.resp ⟨200, .null⟩)).2.1 = [] ∧
    (repo.get_entities h (.dict [])
      (Server.getAllOutcome (Server.afterRequests srv
        (repo.clear h srv.getAllOutcome (.resp ⟨200, .null⟩)).2.1))).1 =
      .ok [] := by
  obtain ⟨a, as, rfl⟩ : ∃ a as, srv = a :: as := by
    cases srv with
    | nil => exact absurd rfl hne
    | cons a as => exact ⟨a, as, rfl⟩
  have hclear : repo.clear h (Server.getAllOutcome (a :: as))
      (.resp ⟨200, .null⟩) =
      (.ok (),
        [⟨"POST", entityUrl repo, .jsonFilter [],
          h.read repo.headersRef, []⟩,
         ⟨"DELETE", entityUrlSlash repo,
          .jsonIds ((a :: as).map EDict.id_),
          h.read repo.headersRef, []⟩], h) := by
    have hget := get_entities_all repo h (a :: as)
    have hids := mapM_getId_entities ((a :: as).map (fun e => hkfy e))
    simp only [HKRepository.clear, hget, List.map_cons,
      HKRepository.delete_entities]
    simp only [List.map_cons] at hids
    rw [hids]
    simp [netResult, validateUnit, response_validator, List.map_map,
      Function.comp, hkfy]
  refine ⟨by rw [hclear], by rw [hclear], ?_, ?_⟩ <;>
  · rw [hclear]
    have hfil := filter_own_ids (a :: as)
    simp [Server.afterRequests, Server.applyReq, hfil,
      HKRepository.get_entities, Server.getAllOutcome, netResult,
      validateBody, response_validator, valuesToEntities, Except.mapError]
    exact fun x hx _ => ⟨x, hx, rfl⟩

/-- C5, witness: clearing a concrete one-entity store issues the fetch
POST then the DELETE of that entity's id, succeeds, and leaves the
store answering the empty collection. -/
theorem clear_empties_repository_witness :
    (demoRepo.clear demoHeap
      (Server.getAllOutcome [⟨"a", [("p", "q")]⟩])
      (.resp ⟨200, .null⟩)).1 = .ok () ∧
    (demoRepo.clear demoHeap
      (Server.getAllOutcome [⟨"a", [("p", "q")]⟩])
      (.resp ⟨200, .null⟩)).2.1 =
      [⟨"POST", entityUrl demoRepo, .jsonFilter [],
        demoHeap.read demoRepo.headersRef, []⟩,
       ⟨"DELETE", entityUrlSlash demoRepo, .jsonIds ["a"],
        demoHeap.read demoRepo.headersRef, []⟩] ∧
    Server.afterRequests [⟨"a", [("p", "q")]⟩]
      (demoRepo.clear demoHeap
        (Server.getAllOutcome [⟨"a", [("p", "q")]⟩])
        (.resp ⟨200, .null⟩)).2.1 = [] ∧
    (demoRepo.get_entities demoHeap (.dict [])
      (Server.getAllOutcome (Server.afterRequests [⟨"a", [("p", "q")]⟩]
        (demoRepo.clear demoHeap
          (Server.getAllOutcome [⟨"a", [("p", "q")]⟩])
          (.resp ⟨200, .null⟩)).2.1))).1 = .ok [] :=
  clear_empties_repository demoRepo demoHeap [⟨"a", [("p", "q")]⟩]
    (by decide)

/-- The entity-collection URL and the RDF-import URL of a repository are
distinct strings. -/
theorem entityUrlSlash_ne_rdfUrl (repo : HKRepository) :
    entityUrlSlash repo ≠ rdfUrl repo := by
  intro hcontra
  have hlen := congrArg String.length hcontra
  have h8 : String.length "/entity/" = 8 := rfl
  have h4 : String.length "/rdf" = 4 := rfl
  simp only [entityUrlSlash, rdfUrl, String.length_append, h8, h4] at hlen
  omega

/-- Every request `add_entities` issues goes to the entity-collection
URL. -/
theorem add_entities_trace_entity_url (repo : HKRepository) (h : Heap)
    (ents : EntitiesArg) (t : Option HKTransaction) (net : NetOutcome) :
    ∀ req ∈ (repo.add_entities h ents t net).2.1,
      req.url = entityUrlSlash repo := by
  have hlist : ∀ xs : List EntArg,
      ∀ r ∈ (repo.add_entities h (.list xs) t net).2.1,
        r.url = entityUrlSlash repo := by
    intro xs r hr
    rcases xs with _ | ⟨x0, rest⟩
    · simp [HKRepository.add_entities] at hr
    · simp only [HKRepository.add_entities] at hr
      split at hr
      · simp at hr
      · simp [putEntities] at hr
        rw [hr]
  intro req hreq
  rcases ents with x | xs
  · exact hlist [x] req hreq
  · exact hlist xs req hreq

/-- C6: `import_data` with the `as_hk` option set to `True` on a source
whose content is valid JSON is exactly `add_entities` on the parsed
content — same request, same result — for raw-string and for stream
sources alike, and no request reaches the RDF-import endpoint. -/
theorem import_data_as_hk_is_add_entities (repo : HKRepository) (h : Heap)
    (c : SourceContent) (v : EntitiesArg) (datatype : String)
    (ctx : Option ContextArg) (net : NetOutcome)
    (hjson : json_loads c = .ok v) :
    (repo.import_data h (.str c) datatype ⟨some true, ctx⟩ net =
      repo.add_entities h v none net) ∧
    (repo.import_data h (.stream c) datatype ⟨some true, ctx⟩ net =
      repo.add_entities h v none net) ∧
    (∀ req ∈ (repo.import_data h (.str c) datatype ⟨some true, ctx⟩ net).2.1,
      req.url ≠ rdfUrl repo) := by
  have himp : repo.import_data h (.str c) datatype ⟨some true, ctx⟩ net =
      repo.add_entities h v none net := by
    simp [HKRepository.import_data, hjson]
  refine ⟨himp, by simp [HKRepository.import_data, hjson], ?_⟩
  intro req hreq
  rw [himp] at hreq
  rw [add_entities_trace_entity_url repo h v none net req hreq]
  exact entityUrlSlash_ne_rdfUrl repo

/-- C6, witness: importing the concrete JSON text parsing to a
one-mapping list with `as_hk=True` coincides with `add_entities` on
that list, for both source kinds, and the one issued PUT does not
target the RDF endpoint. -/
theorem import_data_as_hk_witness :
    (demoRepo.import_data demoHeap (.str (.jsonOf (.list [.dict demoDict])))
        "application/json" ⟨some true, none⟩ netOk =
      demoRepo.add_entities demoHeap (.list [.dict demoDict]) none netOk) ∧
    (demoRepo.import_data demoHeap
        (.stream (.jsonOf (.list [.dict demoDict])))
        "application/json" ⟨some true, none⟩ netOk =
      demoRepo.add_entities demoHeap (.list [.dict demoDict]) none netOk) ∧
    (⟨"PUT", entityUrlSlash demoRepo, .jsonEntities [.obj demoDict],
        dictSet (demoHeap.read demoRepo.headersRef)
          "Content-Type" "application/json", []⟩ : Request).url ≠
      rdfUrl demoRepo := by
  have T := import_data_as_hk_is_add_entities demoRepo demoHeap
    (.jsonOf (.list [.dict demoDict])) (.list [.dict demoDict])
    "application/json" none netOk (by decide)
  exact ⟨T.1, T.2.1, T.2.2 _ (by decide)⟩

/-- C9 counterexample: on a concrete base client and heap, the
repository client constructed from it stores the very same header
mapping reference as the base client, and an in-place write through the
repository's stored mapping is visible through the base client's
mapping and changes it — so construction stored the shared object
itself, not a copy of the header mapping. -/
theorem repository_headers_alias_counterexample :
    demoRepo.headersRef = demoBase.headersRef ∧
    Heap.read (demoHeap.write demoRepo.headersRef [("X-Probe", "1")])
      demoBase.headersRef = [("X-Probe", "1")] ∧
    Heap.read (demoHeap.write demoRepo.headersRef [("X-Probe", "1")])
      demoBase.headersRef ≠ demoHeap.read demoBase.headersRef := by
  decide

/-- The heap after `add_entities` is the heap before: the per-call
content-type change happens on a deep copy of the stored headers. -/
theorem add_entities_heap (repo : HKRepository) (h : Heap)
    (ents : EntitiesArg) (t : Option HKTransaction) (net : NetOutcome) :
    (repo.add_entities h ents t net).2.2 = h := by
  have hlist : ∀ xs : List EntArg,
      (repo.add_entities h (.list xs) t net).2.2 = h := by
    intro xs
    rcases xs with _ | ⟨x0, rest⟩
    · rfl
    · simp only [HKRepository.add_entities]
      split
      · rfl
      · rfl
  rcases ents with x | xs
  · exact hlist [x]
  · exact hlist xs

/-- The heap after `delete_entities` is the heap before: the stored
headers are used read-only. -/
theorem delete_entities_heap (repo : HKRepository) (h : Heap)
    (ids : IdsArg) (t : Option HKTransaction) (net : NetOutcome) :
    (repo.delete_entities h ids t net).2.2 = h := by
  have hlist : ∀ xs : List IdElem,
      (repo.delete_entities h (.list xs) t net).2.2 = h := by
    intro xs
    rcases xs with _ | ⟨x0, rest⟩
    · rfl
    · simp only [HKRepository.delete_entities]
      split
      · rfl
      · rfl
  rcases ids with x | xs
  · exact hlist [x]
  · exact hlist xs

/-- The heap after `import_data` is the heap before: the per-call
header changes happen on a copy. -/
theorem import_data_heap (repo : HKRepository) (h : Heap)
    (fd : ImportSource) (datatype : String) (opts : ImportOptions)
    (net : NetOutcome) :
    (repo.import_data h fd datatype opts net).2.2 = h := by
  rcases fd with c | c | tag <;> simp only [HKRepository.import_data]
  · split
    · split
      · rfl
      · exact add_entities_heap repo h _ none net
    · rfl
  · split
    · split
      · rfl
      · exact add_entities_heap repo h _ none net
    · rfl

/-- The heap after `clear` is the heap before: both underlying calls
leave it unchanged. -/
theorem clear_heap (repo : HKRepository) (h : Heap)
    (netGet netDel : NetOutcome) :
    (repo.clear h netGet netDel).2.2 = h := by
  unfold HKRepository.clear
  rcases hget : repo.get_entities h (.dict []) netGet with ⟨res, tr, h2⟩
  have hh2 : h2 = h := by
    have : (repo.get_entities h (.dict []) netGet).2.2 = h := rfl
    rw [hget] at this
    exact this
  rcases res with e | entities
  · simpa using hh2
  · simp only []
    rw [delete_entities_heap repo h2]
    exact hh2

/-- C9 amended: at construction the repository client stores the base
client's header mapping itself — the same shared reference, not a
copy — and every repository operation performs its per-call header
changes on a deep copy, so the heap, and with it the client's stored
header mapping and the base client's header mapping, is unchanged
after every repository operation. -/
theorem operations_leave_headers_unchanged (base : HKBase)
    (repo : HKRepository) (h : Heap) (name q datatype : String)
    (ents : EntitiesArg) (f : FilterVal) (ids : IdsArg)
    (t : Option HKTransaction) (fd : ImportSource) (opts : ImportOptions)
    (net netDel : NetOutcome) :
    (HKRepository.init base name).headersRef = base.headersRef ∧
    (repo.add_entities h ents t net).2.2 = h ∧
    (repo.get_entities h f net).2.2 = h ∧
    (repo.delete_entities h ids t net).2.2 = h ∧
    (repo.update_entities h ents t net).2.2 = h ∧
    (repo.import_data h fd datatype opts net).2.2 = h ∧
    (repo.clear h net netDel).2.2 = h ∧
    (repo.hyql h q net).2.2 = h :=
  ⟨rfl, add_entities_heap repo h ents t net, rfl,
    delete_entities_heap repo h ids t net,
    add_entities_heap repo h ents t net,
    import_data_heap repo h fd datatype opts net,
    clear_heap repo h net netDel, rfl⟩
